import Mathlib

/-!
Shallow embedding of `src/lib/CardDAV/backends/redis.js` (the Redis CardDAV
backend of jsDAV) and proofs about it.

The backend talks to a Redis store through the commands HGET, HMGET, HSET,
HMSET, ZADD, ZREM, ZRANGE, DEL and INCR, always reading its prerequisite
state first and then submitting all writes as one MULTI batch.  We model the
store as three association lists (hashes, sorted sets, counters) over string
keys, and each backend operation as a function from the store (plus its
arguments) to an `Except` of the callback's error or of the resulting store
and callback value.  All reads performed by an operation happen on the input
store and all writes are applied afterwards, exactly as in the source, where
every write is queued into a `commands` array and executed at the end.

Values live in the store as strings: the node client stringifies every
command argument, so the number `n` is stored as its decimal rendering
`Nat.repr n` and the JavaScript `null` as `"null"` (the result of
`String(null)`).  `Db.fromMultiBulk` (from `shared/db.js`, not part of the
source under verification) converts reply buffers to utf8 strings; on our
string-level store it is the identity, with absent fields represented as
`none`.
-/

namespace JsDAVRedis

/-- Decimal value of a list of digit characters, most significant first;
used to state that JavaScript's `parseInt` and `JSON.parse` read back the
decimal renderings the backend writes. -/
def decVal (l : List Char) : Nat :=
  l.foldl (fun a c => a * 10 + (c.toNat - 48)) 0

/-- JavaScript `parseInt(str, 10)` as used on stored `ctag` fields: the
longest leading run of decimal digits, `none` for `NaN` when there is no
digit.  (The stored ctags never carry signs or whitespace.) -/
def jsParseInt (s : String) : Option Nat :=
  let ds := s.data.takeWhile Char.isDigit
  if ds = [] then none else some (decVal ds)

/-- A JavaScript number that may be `NaN` (`none`). -/
abbrev JsNum := Option Nat

/-- The `++ctag` step of the backend. -/
def jsIncr (n : JsNum) : JsNum := n.map (· + 1)

/-- Stringification performed by the Redis client on a number argument. -/
def jsNumToString : JsNum → String
  | none => "NaN"
  | some n => Nat.repr n

/-- `String(v)` for a JavaScript value that is either a string or `null`,
as applied by the Redis client to the `displayname`/`description` values of
`createAddressBook` (which start out `null`). -/
def jsValToString : Option String → String
  | some v => v
  | none => "null"

/-- `JSON.stringify` of an array of numbers, the format in which a
principal's set of address-book ids is persisted. -/
def renderIdsChars : List Nat → List Char
  | [] => []
  | [n] => Nat.toDigits 10 n
  | n :: rest => Nat.toDigits 10 n ++ ',' :: renderIdsChars rest

def renderIds (ids : List Nat) : String :=
  ⟨'[' :: renderIdsChars ids ++ [']']⟩

/-- Split a character list at every comma (JSON array item separator). -/
def splitOnComma : List Char → List (List Char)
  | [] => [[]]
  | c :: rest =>
    let r := splitOnComma rest
    if c = ',' then [] :: r
    else
      match r with
      | [] => [[c]]
      | h :: t => (c :: h) :: t

/-- Parse one JSON array item as a natural number. -/
def parseNatChars (l : List Char) : Option Nat :=
  if l ≠ [] ∧ l.all Char.isDigit = true then some (decVal l) else none

def parseNatList : List (List Char) → Option (List Nat)
  | [] => some []
  | x :: xs =>
    match parseNatChars x, parseNatList xs with
    | some n, some ns => some (n :: ns)
    | _, _ => none

/-- `JSON.parse` restricted to the payloads this backend ever writes: JSON
arrays of (unsigned) numbers.  Everything else — in particular the
malformed index data of §9 of the spec — fails to parse (`none`), matching
the exception `JSON.parse` would throw. -/
def parseIds (s : String) : Option (List Nat) :=
  match s.data with
  | '[' :: rest =>
    match rest.getLast? with
    | some ']' =>
      let mid := rest.dropLast
      if mid = [] then some [] else parseNatList (splitOnComma mid)
    | _ => none
  | _ => none

/-- Errors surfaced to a callback: the `TypeError` thrown by
`null.toString()`, the exception of a failed `JSON.parse`, and
`Exc.BadRequest` (from `shared/exceptions.js`, constructed with a message). -/
inductive JsError where
  | typeError (msg : String)
  | jsonParseError (src : String)
  | badRequest (msg : String)
deriving DecidableEq, Repr

/-- `res.toString("utf8")` on a Redis bulk reply: throws a `TypeError` when
the reply is null. -/
def jsToString : Option String → Except JsError String
  | none => .error (.typeError "cannot read toString of null")
  | some s => .ok s

/-- `JSON.parse(res.toString("utf8"))` on a principal-index reply, as an
`Except`: both the `TypeError` on a null reply and the parse exception are
raised inside the same `try` block in the source. -/
def jsonParseIds (o : Option String) : Except JsError (List Nat) :=
  match o with
  | none => .error (.typeError "cannot read toString of null")
  | some str =>
    match parseIds str with
    | some ids => .ok ids
    | none => .error (.jsonParseError str)

/-- The `try { ids = JSON.parse(...) } catch (ex) { ids = []; }` pattern of
`createAddressBook` and `deleteAddressBook`. -/
def idsOrEmpty (o : Option String) : List Nat :=
  match jsonParseIds o with
  | .ok ids => ids
  | .error _ => []

/-! ### The store -/

/-- Lookup in an association list (insertion-agnostic model of a Redis hash
or of the key space itself). -/
def alookup {α : Type} : List (String × α) → String → Option α
  | [], _ => none
  | (k', v) :: rest, k => if k' = k then some v else alookup rest k

/-- Set a key in an association list. -/
def aset {α : Type} (l : List (String × α)) (k : String) (v : α) :
    List (String × α) :=
  (k, v) :: l.filter (fun p => p.1 ≠ k)

/-- Remove a key from an association list. -/
def adel {α : Type} (l : List (String × α)) (k : String) :
    List (String × α) :=
  l.filter (fun p => p.1 ≠ k)

/-- The Redis store: hashes (HGET/HSET/HMGET/HMSET), sorted sets
(ZADD/ZREM/ZRANGE, entries are score/member pairs kept in score order) and
integer keys used only by INCR. -/
structure Store where
  hashes : List (String × List (String × String))
  zsets : List (String × List (Nat × String))
  counters : List (String × Nat)
deriving DecidableEq, Repr

def Store.empty : Store := ⟨[], [], []⟩

def Store.hget (s : Store) (key field : String) : Option String :=
  match alookup s.hashes key with
  | none => none
  | some h => alookup h field

def Store.hset (s : Store) (key field value : String) : Store :=
  { s with hashes :=
      (aset s.hashes key (aset ((alookup s.hashes key).getD []) field value)) }

def Store.hmset (s : Store) (key : String) (fvs : List (String × String)) :
    Store :=
  fvs.foldl (fun st fv => st.hset key fv.1 fv.2) s

/-- HMGET: one bulk reply per requested field, null (`none`) for a field or
key that is absent. -/
def Store.hmget (s : Store) (key : String) (fields : List String) :
    List (Option String) :=
  fields.map (fun f => s.hget key f)

/-- Insert into a score-sorted list of sorted-set entries. -/
def zinsert (score : Nat) (member : String) :
    List (Nat × String) → List (Nat × String)
  | [] => [(score, member)]
  | (s0, m0) :: rest =>
    if score < s0 then (score, member) :: (s0, m0) :: rest
    else (s0, m0) :: zinsert score member rest

def Store.zadd (s : Store) (key : String) (score : Nat) (member : String) :
    Store :=
  { s with zsets :=
      (aset s.zsets key
        (zinsert score member
          (((alookup s.zsets key).getD []).filter (fun p => p.2 ≠ member)))) }

def Store.zrem (s : Store) (key member : String) : Store :=
  match alookup s.zsets key with
  | none => s
  | some z =>
    { s with zsets := aset s.zsets key (z.filter (fun p => p.2 ≠ member)) }

/-- ZRANGE key 0 -1: all members in score order. -/
def Store.zrangeAll (s : Store) (key : String) : List String :=
  ((alookup s.zsets key).getD []).map (·.2)

/-- DEL: removes the key whatever its type. -/
def Store.del (s : Store) (key : String) : Store :=
  ⟨adel s.hashes key, adel s.zsets key, adel s.counters key⟩

/-- INCR: atomic increment of an integer key (absent counts as 0), returning
the incremented value. -/
def Store.incr (s : Store) (key : String) : Nat × Store :=
  let n := (alookup s.counters key).getD 0 + 1
  (n, { s with counters := aset s.counters key n })

/-! ### Key space

The table names are the defaults installed by `initialize`
(`"addressbooks"` and `"cards"`).  Key strings are built exactly as in the
source; note that the principal index key spells `pricipalUri` — the same
(misspelled) key is used consistently by every operation that touches it —
while the *field name* read by `deleteAddressBook` from an address book's
record is `pricipaluri`, which no operation ever writes
(`createAddressBook` writes `principaluri`). -/

def addressBooksTableName : String := "addressbooks"

def cardsTableName : String := "cards"

/-- `this.addressBooksTableName + "/pricipalUri"`. -/
def principalIndexKey : String := addressBooksTableName ++ "/pricipalUri"

/-- `this.addressBooksTableName + "/ID"`, the id counter. -/
def idCounterKey : String := addressBooksTableName ++ "/ID"

/-- `this.addressBooksTableName + "/" + addressBookId`. -/
def bookKey (id : Nat) : String :=
  addressBooksTableName ++ "/" ++ Nat.repr id

/-- `this.addressBooksTableName + "/" + addressBookId + "/" +
this.cardsTableName`: the per-address-book card index read by `getCards`
and `deleteAddressBook`. -/
def bookCardsIndexKey (id : Nat) : String :=
  addressBooksTableName ++ "/" ++ Nat.repr id ++ "/" ++ cardsTableName

/-- `this.addressBooksTableName + "/" + this.cardsTableName`: the key
`createCard` ZADDs to and `deleteCard` ZREMs from.  It does not mention the
address-book id. -/
def cardMutationIndexKey : String :=
  addressBooksTableName ++ "/" ++ cardsTableName

/-- `this.cardsTableName + "/" + addressBookId + "/" + cardUri`. -/
def cardKey (id : Nat) (uri : String) : String :=
  cardsTableName ++ "/" ++ Nat.repr id ++ "/" ++ uri

/-! ### The backend operations -/

/-- One element of the array `getAddressBooksForUser` hands to its callback.
Field names follow the JavaScript property names (`getctag` stands for
`{http://calendarserver.org/ns/}getctag`, `description` for the
`addressbook-description` property).  The constant
`supported-address-data` property object injected into every entry carries
no store data and is omitted. -/
structure AddressBookEntry where
  id : Nat
  uri : Option String
  principaluri : Option String
  displayname : Option String
  description : Option String
  getctag : Option String
deriving DecidableEq, Repr

/-- The entry assembled for one id: an HMGET of four fields, distributed
over the result object by numeric index — `data[2]` into `displayname`,
`data[3]` into the description property and `data[4]` into `getctag`, the
last being past the end of the four-element reply. -/
def bookEntryOf (s : Store) (id : Nat) : AddressBookEntry :=
  let data := s.hmget (bookKey id) ["uri", "principaluri", "description", "ctag"]
  { id := id
    uri := data.getD 0 none
    principaluri := data.getD 1 none
    displayname := data.getD 2 none
    description := data.getD 3 none
    getctag := data.getD 4 none }

def getAddressBooksForUser (s : Store) (principalUri : String) :
    Except JsError (List AddressBookEntry) :=
  match jsonParseIds (s.hget principalIndexKey principalUri) with
  | .error e => .error e
  | .ok ids => .ok (ids.map (bookEntryOf s))

def displaynameProp : String := "{DAV:}displayname"

/-- Modelled from the spec: the CardDAV namespace constant
`jsCardDAV_Plugin.NS_CARDDAV` comes from `plugin.js`, which is not part of
the source under verification; the spec fixes the recognized property names
as the display name and the address-book description, and the standard
CardDAV namespace is used for the latter. -/
def NS_CARDDAV : String := "urn:ietf:params:xml:ns:carddav"

def descriptionProp : String :=
  "\x7b" ++ NS_CARDDAV ++ "\x7daddressbook-description"

/-- The `for (var property in updates) command.push(property, ...)` step:
the hash field written for one optional member of the `updates` object. -/
def optField (name : String) : Option String → List (String × String)
  | some v => [(name, v)]
  | none => []

/-- The mutation loop of `updateAddressBook`: fold the recognized
properties into the `updates` object, `none` as soon as any property name is
unrecognized (`default:` branch — the entire request fails). -/
def applyMutations :
    List (String × String) → Option String × Option String →
      Option (Option String × Option String)
  | [], acc => some acc
  | (p, v) :: rest, (dn, de) =>
    if p = displaynameProp then applyMutations rest (some v, de)
    else if p = descriptionProp then applyMutations rest (dn, some v)
    else none

def updateAddressBook (s : Store) (addressBookId : Nat)
    (mutations : List (String × String)) : Except JsError (Store × Bool) :=
  match applyMutations mutations (none, none) with
  | none => .ok (s, false)
  | some (dn, de) =>
    if dn = none ∧ de = none then .ok (s, false)
    else
      match s.hget (bookKey addressBookId) "ctag" with
      | none => .error (.typeError "cannot read toString of null")
      | some ctagStr =>
        let fields :=
          ("ctag", jsNumToString (jsIncr (jsParseInt ctagStr))) ::
            (optField "displayname" dn ++ optField "description" de)
        .ok (s.hmset (bookKey addressBookId) fields, true)

/-- The property loop of `createAddressBook`: like `applyMutations` but an
unrecognized name raises `Exc.BadRequest`. -/
def applyProperties :
    List (String × String) → Option String × Option String →
      Except JsError (Option String × Option String)
  | [], acc => .ok acc
  | (p, v) :: rest, (dn, de) =>
    if p = displaynameProp then applyProperties rest (some v, de)
    else if p = descriptionProp then applyProperties rest (dn, some v)
    else .error (.badRequest ("Unknown property: " ++ p))

def createAddressBook (s : Store) (principalUri url : String)
    (properties : List (String × String)) : Except JsError Store :=
  match applyProperties properties (none, none) with
  | .error e => .error e
  | .ok (dn, de) =>
    let ids := idsOrEmpty (s.hget principalIndexKey principalUri)
    match s.incr idCounterKey with
    | (id, s1) =>
      let s2 := s1.hset principalIndexKey principalUri (renderIds (ids ++ [id]))
      let s3 := s2.hmset (bookKey id)
        [("ctag", Nat.repr 1),
         ("displayname", jsValToString dn),
         ("description", jsValToString de),
         ("principaluri", principalUri),
         ("uri", url)]
      .ok s3

def deleteAddressBook (s : Store) (addressBookId : Nat) :
    Except JsError Store :=
  match s.hget (bookKey addressBookId) "pricipaluri" with
  | none => .error (.typeError "cannot read toString of null")
  | some principalUri =>
    let ids := idsOrEmpty (s.hget principalIndexKey principalUri)
    let cardUris := s.zrangeAll (bookCardsIndexKey addressBookId)
    let s1 := s.del (bookKey addressBookId)
    let s2 := s1.del (bookCardsIndexKey addressBookId)
    let s3 := s2.hset principalIndexKey principalUri
      (renderIds (ids.erase addressBookId))
    let s4 := cardUris.foldl
      (fun st u => st.del (cardKey addressBookId u)) s3
    .ok s4

/-- One element of the array `getCards` hands to its callback. -/
structure CardEntry where
  uri : String
  carddata : Option String
  lastmodified : Option String
deriving DecidableEq, Repr

def getCards (s : Store) (addressbookId : Nat) : List CardEntry :=
  (s.zrangeAll (bookCardsIndexKey addressbookId)).map (fun u =>
    let data := s.hmget (cardKey addressbookId u) ["carddata", "lastmodified"]
    { uri := u, carddata := data.getD 0 none, lastmodified := data.getD 1 none })

/-- What `getCard` does with its callback: hand it a card object, hand it
the explicit absent value `false`, or — for the branch reading
`return callback` — return the callback function without ever invoking it. -/
inductive GetCardOutcome where
  | found (card : CardEntry)
  | callbackFalse
  | callbackNotInvoked
deriving DecidableEq, Repr

def getCard (s : Store) (addressBookId : Nat) (cardUri : String) :
    GetCardOutcome :=
  let res := s.hmget (cardKey addressBookId cardUri) ["carddata", "lastmodified"]
  if res.length = 0 then .callbackNotInvoked
  else if res.length ≠ 0 then
    .found { uri := cardUri, carddata := res.getD 0 none,
             lastmodified := res.getD 1 none }
  else .callbackFalse

/-- Modelled from the spec: `Util.md5` (from `shared/util.js`, not part of
the source under verification) is the content hash from which a card's etag
is derived; per the spec it is a deterministic content fingerprint of the
body that "must change if and only if `body` changes", so we model it as an
injective function of the body. -/
def md5 (body : String) : String := body

/-- The double quotes around the returned etag. -/
def quoteStr (s : String) : String := "\"" ++ s ++ "\""

def createCard (s : Store) (addressBookId : Nat) (cardUri cardData : String)
    (now : Nat) : Except JsError (Store × String) :=
  match s.hget (bookKey addressBookId) "ctag" with
  | none => .error (.typeError "cannot read toString of null")
  | some ctagStr =>
    let s1 := s.hmset (cardKey addressBookId cardUri)
      [("carddata", cardData), ("lastmodified", Nat.repr now)]
    let s2 := s1.zadd cardMutationIndexKey now cardUri
    let s3 := s2.hset (bookKey addressBookId) "ctag"
      (jsNumToString (jsIncr (jsParseInt ctagStr)))
    .ok (s3, quoteStr (md5 cardData))

def updateCard (s : Store) (addressBookId : Nat) (cardUri cardData : String)
    (now : Nat) : Except JsError (Store × String) :=
  match s.hget (bookKey addressBookId) "ctag" with
  | none => .error (.typeError "cannot read toString of null")
  | some ctagStr =>
    let s1 := s.hmset (cardKey addressBookId cardUri)
      [("carddata", cardData), ("lastmodified", Nat.repr now)]
    let s2 := s1.hset (bookKey addressBookId) "ctag"
      (jsNumToString (jsIncr (jsParseInt ctagStr)))
    .ok (s2, quoteStr (md5 cardData))

def deleteCard (s : Store) (addressBookId : Nat) (cardUri : String) :
    Except JsError (Store × Bool) :=
  match s.hget (bookKey addressBookId) "ctag" with
  | none => .error (.typeError "cannot read toString of null")
  | some ctagStr =>
    let s1 := s.del (cardKey addressBookId cardUri)
    let s2 := s1.zrem cardMutationIndexKey cardUri
    let s3 := s2.hset (bookKey addressBookId) "ctag"
      (jsNumToString (jsIncr (jsParseInt ctagStr)))
    .ok (s3, true)

/-- The ctag field an address book stores. -/
def ctagOf (s : Store) (id : Nat) : Option String :=
  s.hget (bookKey id) "ctag"

/-! ### Decimal rendering: `Nat.repr` produces the digits of its argument

These lemmas recover, from the fuel-based `Nat.toDigitsCore` underlying
`Nat.repr`, that the rendering consists of decimal digits and is inverted
by `decVal`; injectivity of `Nat.repr` and the key-space disequalities
follow. -/

theorem toDigitsCore_append (fu : Nat) : ∀ (n : Nat) (acc : List Char),
    Nat.toDigitsCore 10 fu n acc = Nat.toDigitsCore 10 fu n [] ++ acc := by
  induction fu with
  | zero => intro n acc; simp [Nat.toDigitsCore]
  | succ f ih =>
    intro n acc
    simp only [Nat.toDigitsCore]
    by_cases h : n / 10 = 0
    · simp [h]
    · simp only [if_neg h]
      rw [ih (n / 10) (Nat.digitChar (n % 10) :: acc),
        ih (n / 10) [Nat.digitChar (n % 10)]]
      simp

theorem ten_le_of_div_ne_zero {n : Nat} (h : ¬ n / 10 = 0) : 10 ≤ n := by
  by_contra hlt
  exact h (Nat.div_eq_of_lt (by omega))

theorem toDigitsCore_fuel : ∀ (n f1 f2 : Nat), n < f1 → n < f2 →
    Nat.toDigitsCore 10 f1 n [] = Nat.toDigitsCore 10 f2 n [] := by
  intro n
  induction n using Nat.strong_induction_on with
  | _ n ih =>
    intro f1 f2 h1 h2
    match f1, f2 with
    | g1+1, g2+1 =>
      simp only [Nat.toDigitsCore]
      by_cases h : n / 10 = 0
      · simp [h]
      · simp only [if_neg h]
        have h10 : 10 ≤ n := ten_le_of_div_ne_zero h
        have hlt : n / 10 < n := Nat.div_lt_self (by omega) (by omega)
        rw [toDigitsCore_append g1, toDigitsCore_append g2]
        congr 1
        exact ih (n / 10) hlt g1 g2 (by omega) (by omega)

theorem toDigits_eq (n : Nat) :
    Nat.toDigits 10 n =
      if n < 10 then [Nat.digitChar n]
      else Nat.toDigits 10 (n / 10) ++ [Nat.digitChar (n % 10)] := by
  by_cases h : n < 10
  · have hz : n / 10 = 0 := Nat.div_eq_of_lt h
    have hm : n % 10 = n := Nat.mod_eq_of_lt h
    simp [Nat.toDigits, Nat.toDigitsCore, hz, hm, h]
  · have hz : ¬ n / 10 = 0 := by
      intro hc
      have h10 : n < 10 := by
        by_contra hge
        have : 1 ≤ n / 10 := Nat.one_le_div_iff (by omega) |>.2 (by omega)
        omega
      exact h h10
    have h10 : 10 ≤ n := ten_le_of_div_ne_zero hz
    simp only [if_neg h, Nat.toDigits, Nat.toDigitsCore]
    simp only [if_neg hz]
    rw [toDigitsCore_append]
    congr 1
    exact toDigitsCore_fuel (n / 10) n (n / 10 + 1)
      (Nat.div_lt_self (by omega) (by omega)) (by omega)

theorem digitChar_toNat : ∀ m < 10, (Nat.digitChar m).toNat - 48 = m := by decide

theorem decVal_toDigits : ∀ n : Nat, decVal (Nat.toDigits 10 n) = n := by
  intro n
  induction n using Nat.strong_induction_on with
  | _ n ih =>
    rw [toDigits_eq]
    by_cases h : n < 10
    · simp only [if_pos h, decVal, List.foldl]
      simpa using digitChar_toNat n h
    · have hlt : n / 10 < n := Nat.div_lt_self (by omega) (by omega)
      simp only [if_neg h, decVal, List.foldl_append, List.foldl]
      have ihv := ih (n / 10) hlt
      simp only [decVal] at ihv
      rw [ihv, digitChar_toNat (n % 10) (Nat.mod_lt _ (by omega))]
      omega

theorem toDigits_all_digits : ∀ n : Nat, ∀ c ∈ Nat.toDigits 10 n,
    c.isDigit = true := by
  have base : ∀ m < 10, (Nat.digitChar m).isDigit = true := by decide
  intro n
  induction n using Nat.strong_induction_on with
  | _ n ih =>
    rw [toDigits_eq]
    by_cases h : n < 10
    · simp only [if_pos h, List.mem_singleton]
      rintro c rfl
      exact base n h
    · have hlt : n / 10 < n := Nat.div_lt_self (by omega) (by omega)
      simp only [if_neg h, List.mem_append, List.mem_singleton]
      rintro c (hc | rfl)
      · exact ih (n / 10) hlt c hc
      · exact base (n % 10) (Nat.mod_lt _ (by omega))

theorem repr_data (n : Nat) : (Nat.repr n).data = Nat.toDigits 10 n := rfl

theorem natRepr_inj : ∀ {m n : Nat}, Nat.repr m = Nat.repr n → m = n := by
  intro m n h
  have hd : Nat.toDigits 10 m = Nat.toDigits 10 n := by
    have := congrArg String.data h
    rwa [repr_data, repr_data] at this
  have := congrArg decVal hd
  rwa [decVal_toDigits, decVal_toDigits] at this

theorem str_ne_of_data_ne {s t : String} (h : s.data ≠ t.data) : s ≠ t :=
  fun hc => h (congrArg String.data hc)

theorem bookKey_inj : ∀ {a b : Nat}, bookKey a = bookKey b → a = b := by
  intro a b h
  have hd := congrArg String.data h
  simp only [bookKey, addressBooksTableName, String.data_append, repr_data,
    List.append_assoc] at hd
  have h2 := List.append_cancel_left (List.append_cancel_left hd)
  have := congrArg decVal h2
  rwa [decVal_toDigits, decVal_toDigits] at this

theorem principalIndexKey_ne_bookKey (a : Nat) :
    principalIndexKey ≠ bookKey a := by
  apply str_ne_of_data_ne
  intro h
  simp only [principalIndexKey, bookKey, String.data_append, repr_data,
    List.append_assoc] at h
  have h2 := List.append_cancel_left h
  simp only [List.singleton_append, List.cons.injEq, true_and] at h2
  have h3 : 'p' ∈ Nat.toDigits 10 a := h2 ▸ (by simp)
  exact absurd (toDigits_all_digits a 'p' h3) (by decide)

theorem bookCardsIndexKey_ne_bookKey (b a : Nat) :
    bookCardsIndexKey b ≠ bookKey a := by
  apply str_ne_of_data_ne
  intro h
  simp only [bookCardsIndexKey, bookKey, String.data_append, repr_data,
    List.append_assoc] at h
  have h2 := List.append_cancel_left (List.append_cancel_left h)
  have h3 : '/' ∈ Nat.toDigits 10 a := by
    rw [← h2]
    simp
  exact absurd (toDigits_all_digits a '/' h3) (by decide)

theorem cardKey_ne_bookKey (b : Nat) (u : String) (a : Nat) :
    cardKey b u ≠ bookKey a := by
  apply str_ne_of_data_ne
  intro h
  simp only [cardKey, bookKey, cardsTableName, addressBooksTableName,
    String.data_append, repr_data, List.append_assoc] at h
  simp only [List.cons_append, List.nil_append, List.cons.injEq] at h
  exact absurd h.1 (by decide)

/-! ### Store lemmas -/

theorem alookup_aset_self {α : Type} (l : List (String × α)) (k : String) (v : α) :
    alookup (aset l k v) k = some v := by
  simp [alookup, aset]

theorem alookup_filter_ne {α : Type} {k k' : String} (h : k' ≠ k) :
    ∀ l : List (String × α),
      alookup (l.filter (fun p => p.1 ≠ k)) k' = alookup l k' := by
  have hkk : ¬ (k = k') := fun hc => h hc.symm
  intro l
  induction l with
  | nil => rfl
  | cons a rest ih =>
    simp only [ne_eq, decide_not] at ih ⊢
    rw [List.filter_cons]
    by_cases ha : a.1 = k
    · simp [ha, alookup, hkk, ih]
    · simp [ha, alookup, ih]

theorem alookup_aset_ne {α : Type} (l : List (String × α)) {k k' : String}
    (v : α) (h : k' ≠ k) : alookup (aset l k v) k' = alookup l k' := by
  have hne : ¬ (k = k') := fun hc => h hc.symm
  have hf := alookup_filter_ne h l
  simp only [ne_eq, decide_not] at hf
  simp [aset, alookup, hne, hf]

theorem hget_hset_self (s : Store) (k f v : String) :
    (s.hset k f v).hget k f = some v := by
  simp [Store.hget, Store.hset, alookup_aset_self]

theorem hget_hset_ne_field (s : Store) {k f f' : String} (v : String)
    (h : f' ≠ f) : (s.hset k f v).hget k f' = s.hget k f' := by
  simp only [Store.hget, Store.hset, alookup_aset_self]
  rw [alookup_aset_ne _ _ h]
  cases hl : alookup s.hashes k <;> simp [hl, alookup]

theorem hget_hset_ne_key (s : Store) {k k' : String} (f v f' : String)
    (h : k' ≠ k) : (s.hset k f v).hget k' f' = s.hget k' f' := by
  simp only [Store.hget, Store.hset]
  rw [alookup_aset_ne _ _ h]

theorem hset_zsets (s : Store) (k f v : String) :
    (s.hset k f v).zsets = s.zsets := rfl

theorem hset_counters (s : Store) (k f v : String) :
    (s.hset k f v).counters = s.counters := rfl

theorem hmset_zsets (k : String) : ∀ (fvs : List (String × String)) (s : Store),
    (s.hmset k fvs).zsets = s.zsets := by
  intro fvs
  induction fvs with
  | nil => intro s; rfl
  | cons fv rest ih =>
    intro s
    simp only [Store.hmset, List.foldl] at ih ⊢
    rw [ih]
    rfl

theorem hmset_counters (k : String) : ∀ (fvs : List (String × String)) (s : Store),
    (s.hmset k fvs).counters = s.counters := by
  intro fvs
  induction fvs with
  | nil => intro s; rfl
  | cons fv rest ih =>
    intro s
    simp only [Store.hmset, List.foldl] at ih ⊢
    rw [ih]
    rfl

theorem hget_zadd (s : Store) (k : String) (sc : Nat) (m k' f' : String) :
    (s.zadd k sc m).hget k' f' = s.hget k' f' := rfl

theorem hget_zrem (s : Store) (k m k' f' : String) :
    (s.zrem k m).hget k' f' = s.hget k' f' := by
  unfold Store.zrem
  cases alookup s.zsets k <;> rfl

theorem hget_del_ne (s : Store) {k k' : String} (f : String) (h : k' ≠ k) :
    (s.del k).hget k' f = s.hget k' f := by
  simp only [Store.del, Store.hget, adel]
  rw [alookup_filter_ne h]

theorem hget_incr (s : Store) (k k' f' : String) :
    ((s.incr k).2).hget k' f' = s.hget k' f' := rfl

theorem zadd_counters (s : Store) (k : String) (sc : Nat) (m : String) :
    (s.zadd k sc m).counters = s.counters := rfl

theorem zrem_counters (s : Store) (k m : String) :
    (s.zrem k m).counters = s.counters := by
  unfold Store.zrem
  cases alookup s.zsets k <;> rfl

/-! ### Run lemmas: closed forms of the mutating operations -/

theorem jsNumIncr_eq {str : String} {n : Nat} (h : jsParseInt str = some n) :
    jsNumToString (jsIncr (jsParseInt str)) = Nat.repr (n + 1) := by
  rw [h]
  rfl

theorem createCard_eq (s : Store) (aid : Nat) (uri body : String) (now : Nat)
    {str : String} (h1 : s.hget (bookKey aid) "ctag" = some str) :
    createCard s aid uri body now =
      .ok ((((s.hmset (cardKey aid uri)
                [("carddata", body), ("lastmodified", Nat.repr now)]).zadd
              cardMutationIndexKey now uri).hset (bookKey aid) "ctag"
              (jsNumToString (jsIncr (jsParseInt str)))),
           quoteStr (md5 body)) := by
  unfold createCard
  rw [h1]

theorem updateCard_eq (s : Store) (aid : Nat) (uri body : String) (now : Nat)
    {str : String} (h1 : s.hget (bookKey aid) "ctag" = some str) :
    updateCard s aid uri body now =
      .ok (((s.hmset (cardKey aid uri)
                [("carddata", body), ("lastmodified", Nat.repr now)]).hset
              (bookKey aid) "ctag"
              (jsNumToString (jsIncr (jsParseInt str)))),
           quoteStr (md5 body)) := by
  unfold updateCard
  rw [h1]

theorem deleteCard_eq (s : Store) (aid : Nat) (uri : String)
    {str : String} (h1 : s.hget (bookKey aid) "ctag" = some str) :
    deleteCard s aid uri =
      .ok ((((s.del (cardKey aid uri)).zrem
              cardMutationIndexKey uri).hset (bookKey aid) "ctag"
              (jsNumToString (jsIncr (jsParseInt str)))),
           true) := by
  unfold deleteCard
  rw [h1]

theorem updateAddressBook_eq_reject (s : Store) (aid : Nat)
    {muts : List (String × String)}
    (h : applyMutations muts (none, none) = none) :
    updateAddressBook s aid muts = .ok (s, false) := by
  unfold updateAddressBook
  rw [h]

theorem updateAddressBook_eq_noop (s : Store) (aid : Nat)
    {muts : List (String × String)}
    (h : applyMutations muts (none, none) = some (none, none)) :
    updateAddressBook s aid muts = .ok (s, false) := by
  unfold updateAddressBook
  rw [h]
  simp

theorem updateAddressBook_eq_write (s : Store) (aid : Nat)
    {muts : List (String × String)} {dn de : Option String}
    (h : applyMutations muts (none, none) = some (dn, de))
    (hne : ¬ (dn = none ∧ de = none))
    {str : String} (h1 : s.hget (bookKey aid) "ctag" = some str) :
    updateAddressBook s aid muts =
      .ok (s.hmset (bookKey aid)
            (("ctag", jsNumToString (jsIncr (jsParseInt str))) ::
              (optField "displayname" dn ++ optField "description" de)),
           true) := by
  unfold updateAddressBook
  rw [h]
  dsimp only
  rw [if_neg hne, h1]

theorem createAddressBook_eq (s : Store) (p url : String)
    {props : List (String × String)} {dn de : Option String}
    (h : applyProperties props (none, none) = .ok (dn, de)) :
    createAddressBook s p url props =
      .ok (((s.incr idCounterKey).2.hset principalIndexKey p
              (renderIds (idsOrEmpty (s.hget principalIndexKey p) ++
                [(alookup s.counters idCounterKey).getD 0 + 1]))).hmset
            (bookKey ((alookup s.counters idCounterKey).getD 0 + 1))
            [("ctag", Nat.repr 1),
             ("displayname", jsValToString dn),
             ("description", jsValToString de),
             ("principaluri", p),
             ("uri", url)]) := by
  unfold createAddressBook
  rw [h]
  rfl

theorem deleteAddressBook_eq (s : Store) (bid : Nat)
    {pu : String} (h : s.hget (bookKey bid) "pricipaluri" = some pu) :
    deleteAddressBook s bid =
      .ok ((s.zrangeAll (bookCardsIndexKey bid)).foldl
            (fun st u => st.del (cardKey bid u))
            (((s.del (bookKey bid)).del (bookCardsIndexKey bid)).hset
              principalIndexKey pu
              (renderIds ((idsOrEmpty (s.hget principalIndexKey pu)).erase bid)))) := by
  unfold deleteAddressBook
  rw [h]

theorem hget_foldl_del_cards (b a : Nat) (f : String) :
    ∀ (us : List String) (st : Store),
      (us.foldl (fun st u => st.del (cardKey b u)) st).hget (bookKey a) f =
        st.hget (bookKey a) f := by
  intro us
  induction us with
  | nil => intro st; rfl
  | cons u rest ih =>
    intro st
    simp only [List.foldl]
    rw [ih, hget_del_ne _ _ (cardKey_ne_bookKey b u a).symm]


theorem ctag_after_updates (s : Store) (aid : Nat) (v : String)
    (dn de : Option String) :
    (s.hmset (bookKey aid)
        (("ctag", v) :: (optField "displayname" dn ++ optField "description" de))).hget
      (bookKey aid) "ctag" = some v := by
  cases dn <;> cases de <;>
    simp only [optField, List.nil_append, List.cons_append, List.append_nil,
      Store.hmset, List.foldl] <;>
    first
      | rw [hget_hset_self]
      | rw [hget_hset_ne_field _ _ (by decide), hget_hset_self]
      | rw [hget_hset_ne_field _ _ (by decide),
          hget_hset_ne_field _ _ (by decide), hget_hset_self]

/-! ### Claim theorems -/

/-- C1: every successful `createCard`, `updateCard` or `deleteCard` on an
address book whose stored ctag denotes `n` rewrites that ctag to exactly
`n + 1` (the read of the current value and the write of its successor
belong to the same operation); and no other operation decrements or resets
the ctag of an existing book: `updateAddressBook` either leaves the store
untouched or writes exactly `n + 1`, `createAddressBook` (when the id
counter is at or past the book's id, as it always is once the book has been
allocated) leaves the book's ctag unchanged, and `deleteAddressBook` of a
different book leaves it unchanged as well. -/
theorem C1_ctag_discipline :
    (∀ (s : Store) (aid : Nat) (uri body : String) (now : Nat)
      (str : String) (n : Nat),
      ctagOf s aid = some str → jsParseInt str = some n →
      ∃ s2 etag, createCard s aid uri body now = .ok (s2, etag) ∧
        ctagOf s2 aid = some (Nat.repr (n + 1))) ∧
    (∀ (s : Store) (aid : Nat) (uri body : String) (now : Nat)
      (str : String) (n : Nat),
      ctagOf s aid = some str → jsParseInt str = some n →
      ∃ s2 etag, updateCard s aid uri body now = .ok (s2, etag) ∧
        ctagOf s2 aid = some (Nat.repr (n + 1))) ∧
    (∀ (s : Store) (aid : Nat) (uri : String) (str : String) (n : Nat),
      ctagOf s aid = some str → jsParseInt str = some n →
      ∃ s2, deleteCard s aid uri = .ok (s2, true) ∧
        ctagOf s2 aid = some (Nat.repr (n + 1))) ∧
    (∀ (s : Store) (aid : Nat) (muts : List (String × String)) (s2 : Store)
      (okv : Bool) (str : String) (n : Nat),
      ctagOf s aid = some str → jsParseInt str = some n →
      updateAddressBook s aid muts = .ok (s2, okv) →
      ctagOf s2 aid = some str ∨ ctagOf s2 aid = some (Nat.repr (n + 1))) ∧
    (∀ (s : Store) (p url : String) (props : List (String × String))
      (s2 : Store) (aid c : Nat),
      alookup s.counters idCounterKey = some c → aid ≤ c →
      createAddressBook s p url props = .ok s2 →
      ctagOf s2 aid = ctagOf s aid) ∧
    (∀ (s : Store) (bid : Nat) (s2 : Store) (aid : Nat),
      aid ≠ bid → deleteAddressBook s bid = .ok s2 →
      ctagOf s2 aid = ctagOf s aid) := by
  refine ⟨?_, ?_, ?_, ?_, ?_, ?_⟩
  · intro s aid uri body now str n h1 h2
    refine ⟨_, _, createCard_eq s aid uri body now h1, ?_⟩
    unfold ctagOf
    rw [hget_hset_self, jsNumIncr_eq h2]
  · intro s aid uri body now str n h1 h2
    refine ⟨_, _, updateCard_eq s aid uri body now h1, ?_⟩
    unfold ctagOf
    rw [hget_hset_self, jsNumIncr_eq h2]
  · intro s aid uri str n h1 h2
    refine ⟨_, deleteCard_eq s aid uri h1, ?_⟩
    unfold ctagOf
    rw [hget_hset_self, jsNumIncr_eq h2]
  · intro s aid muts s2 okv str n h1 h2 hup
    cases happ : applyMutations muts (none, none) with
    | none =>
      rw [updateAddressBook_eq_reject s aid happ] at hup
      simp only [Except.ok.injEq, Prod.mk.injEq] at hup
      rw [← hup.1]
      exact .inl h1
    | some dnde =>
      obtain ⟨dn, de⟩ := dnde
      by_cases hnn : dn = none ∧ de = none
      · obtain ⟨rfl, rfl⟩ := hnn
        rw [updateAddressBook_eq_noop s aid happ] at hup
        simp only [Except.ok.injEq, Prod.mk.injEq] at hup
        rw [← hup.1]
        exact .inl h1
      · rw [updateAddressBook_eq_write s aid happ hnn h1] at hup
        simp only [Except.ok.injEq, Prod.mk.injEq] at hup
        rw [← hup.1]
        right
        rw [ctagOf, ctag_after_updates, jsNumIncr_eq h2]
  · intro s p url props s2 aid c hc hle hcr
    cases happ : applyProperties props (none, none) with
    | error e =>
      unfold createAddressBook at hcr
      rw [happ] at hcr
      simp at hcr
    | ok dnde =>
      obtain ⟨dn, de⟩ := dnde
      rw [createAddressBook_eq s p url happ] at hcr
      simp only [Except.ok.injEq] at hcr
      subst hcr
      have hbne : bookKey aid ≠
          bookKey ((alookup s.counters idCounterKey).getD 0 + 1) := by
        intro hb
        have := bookKey_inj hb
        rw [hc] at this
        simp only [Option.getD] at this
        omega
      unfold ctagOf
      simp only [Store.hmset, List.foldl]
      rw [hget_hset_ne_key _ _ _ _ hbne, hget_hset_ne_key _ _ _ _ hbne,
        hget_hset_ne_key _ _ _ _ hbne, hget_hset_ne_key _ _ _ _ hbne,
        hget_hset_ne_key _ _ _ _ hbne,
        hget_hset_ne_key _ _ _ _ (principalIndexKey_ne_bookKey aid).symm,
        hget_incr]
  · intro s bid s2 aid hne hdel
    cases hpu : s.hget (bookKey bid) "pricipaluri" with
    | none =>
      unfold deleteAddressBook at hdel
      rw [hpu] at hdel
      simp at hdel
    | some pu =>
      rw [deleteAddressBook_eq s bid hpu] at hdel
      simp only [Except.ok.injEq] at hdel
      subst hdel
      unfold ctagOf
      rw [hget_foldl_del_cards,
        hget_hset_ne_key _ _ _ _ (principalIndexKey_ne_bookKey aid).symm,
        hget_del_ne _ _ (bookCardsIndexKey_ne_bookKey bid aid).symm,
        hget_del_ne _ _ (fun hb => hne (bookKey_inj hb))]

/-- A one-book store used to instantiate the claim theorems: address book 1
of principal alice with ctag 1, id counter at 1. -/
def wBook : Store :=
  ⟨[("addressbooks/1",
     [("ctag", "1"), ("principaluri", "alice"), ("uri", "home")])],
   [], [("addressbooks/ID", 1)]⟩

def wBookCreated : Store :=
  match createAddressBook wBook "bob" "u" [] with
  | .ok s => s
  | .error _ => Store.empty

/-- A store holding, besides book 1, a book 2 whose record carries the
`pricipaluri` field that `deleteAddressBook` reads, so that the delete path
can run to completion. -/
def wBookDel : Store :=
  ⟨[("addressbooks/2", [("pricipaluri", "bob")]),
    ("addressbooks/1", [("ctag", "1")])],
   [], []⟩

def wBookDelAfter : Store :=
  match deleteAddressBook wBookDel 2 with
  | .ok s => s
  | .error _ => Store.empty

theorem C1_ctag_discipline_witness :
    (∃ s2 etag, createCard wBook 1 "x.vcf" "BODY" 5 = .ok (s2, etag) ∧
      ctagOf s2 1 = some (Nat.repr 2)) ∧
    (∃ s2 etag, updateCard wBook 1 "x.vcf" "BODY" 5 = .ok (s2, etag) ∧
      ctagOf s2 1 = some (Nat.repr 2)) ∧
    (∃ s2, deleteCard wBook 1 "x.vcf" = .ok (s2, true) ∧
      ctagOf s2 1 = some (Nat.repr 2)) ∧
    (ctagOf wBook 1 = some "1" ∨ ctagOf wBook 1 = some (Nat.repr 2)) ∧
    ctagOf wBookCreated 1 = ctagOf wBook 1 ∧
    ctagOf wBookDelAfter 1 = ctagOf wBookDel 1 :=
  ⟨C1_ctag_discipline.1 wBook 1 "x.vcf" "BODY" 5 "1" 1 rfl rfl,
   C1_ctag_discipline.2.1 wBook 1 "x.vcf" "BODY" 5 "1" 1 rfl rfl,
   C1_ctag_discipline.2.2.1 wBook 1 "x.vcf" "1" 1 rfl rfl,
   C1_ctag_discipline.2.2.2.1 wBook 1 [] wBook false "1" 1 rfl rfl rfl,
   C1_ctag_discipline.2.2.2.2.1 wBook "bob" "u" [] wBookCreated 1 1 rfl
     (by decide) rfl,
   C1_ctag_discipline.2.2.2.2.2 wBookDel 2 wBookDelAfter 1 (by decide) rfl⟩

theorem cardKey_ne_principalIndexKey (b : Nat) (u : String) :
    cardKey b u ≠ principalIndexKey := by
  apply str_ne_of_data_ne
  intro h
  simp only [cardKey, principalIndexKey, cardsTableName, addressBooksTableName,
    String.data_append, repr_data, List.append_assoc] at h
  simp only [List.cons_append, List.nil_append, List.cons.injEq] at h
  exact absurd h.1 (by decide)

theorem hget_foldl_del_principal (b : Nat) (f : String) :
    ∀ (us : List String) (st : Store),
      (us.foldl (fun st u => st.del (cardKey b u)) st).hget principalIndexKey f =
        st.hget principalIndexKey f := by
  intro us
  induction us with
  | nil => intro st; rfl
  | cons u rest ih =>
    intro st
    simp only [List.foldl]
    rw [ih, hget_del_ne _ _ (cardKey_ne_principalIndexKey b u).symm]

theorem idsOrEmpty_of_unparsable {str : String} (h : parseIds str = none) :
    idsOrEmpty (some str) = [] := by
  unfold idsOrEmpty jsonParseIds
  dsimp only
  rw [h]

/-- C10: on a store whose principal index holds an unparsable id set, the
three operations disagree: `getAddressBooksForUser` surfaces the parse
failure as an error, while `createAddressBook` and `deleteAddressBook`
silently treat the set as empty and proceed (the new index value they write
contains only the id being added, respectively nothing). -/
theorem C10_malformed_index_handling :
    (∀ (s : Store) (p str : String),
      s.hget principalIndexKey p = some str → parseIds str = none →
      getAddressBooksForUser s p = .error (.jsonParseError str)) ∧
    (∀ (s : Store) (p url str : String),
      s.hget principalIndexKey p = some str → parseIds str = none →
      ∃ s2, createAddressBook s p url [] = .ok s2 ∧
        s2.hget principalIndexKey p =
          some (renderIds [(alookup s.counters idCounterKey).getD 0 + 1])) ∧
    (∀ (s : Store) (bid : Nat) (pu str : String),
      s.hget (bookKey bid) "pricipaluri" = some pu →
      s.hget principalIndexKey pu = some str → parseIds str = none →
      ∃ s2, deleteAddressBook s bid = .ok s2 ∧
        s2.hget principalIndexKey pu = some (renderIds [])) := by
  refine ⟨?_, ?_, ?_⟩
  · intro s p str h1 h2
    unfold getAddressBooksForUser jsonParseIds
    rw [h1]
    dsimp only
    rw [h2]
  · intro s p url str h1 h2
    refine ⟨_, createAddressBook_eq s p url rfl, ?_⟩
    simp only [Store.hmset, List.foldl]
    rw [hget_hset_ne_key _ _ _ _
        (principalIndexKey_ne_bookKey ((alookup s.counters idCounterKey).getD 0 + 1)),
      hget_hset_ne_key _ _ _ _
        (principalIndexKey_ne_bookKey ((alookup s.counters idCounterKey).getD 0 + 1)),
      hget_hset_ne_key _ _ _ _
        (principalIndexKey_ne_bookKey ((alookup s.counters idCounterKey).getD 0 + 1)),
      hget_hset_ne_key _ _ _ _
        (principalIndexKey_ne_bookKey ((alookup s.counters idCounterKey).getD 0 + 1)),
      hget_hset_ne_key _ _ _ _
        (principalIndexKey_ne_bookKey ((alookup s.counters idCounterKey).getD 0 + 1)),
      hget_hset_self]
    rw [h1, idsOrEmpty_of_unparsable h2]
    rfl
  · intro s bid pu str h1 h2 h3
    refine ⟨_, deleteAddressBook_eq s bid h1, ?_⟩
    rw [hget_foldl_del_principal, hget_hset_self, h2,
      idsOrEmpty_of_unparsable h3]
    rfl

/-- The store of the C10 witness: an unparsable id set for alice, and a
book record 7 carrying the `pricipaluri` field the delete path reads. -/
def malformedStore : Store :=
  ⟨[("addressbooks/pricipalUri", [("alice", "not-json")]),
    ("addressbooks/7", [("pricipaluri", "alice"), ("ctag", "3")])],
   [], []⟩

theorem C10_malformed_index_handling_witness :
    getAddressBooksForUser malformedStore "alice" =
      .error (.jsonParseError "not-json") ∧
    (∃ s2, createAddressBook malformedStore "alice" "home" [] = .ok s2 ∧
      s2.hget principalIndexKey "alice" = some (renderIds [1])) ∧
    (∃ s2, deleteAddressBook malformedStore 7 = .ok s2 ∧
      s2.hget principalIndexKey "alice" = some (renderIds [])) :=
  ⟨C10_malformed_index_handling.1 malformedStore "alice" "not-json" rfl rfl,
   C10_malformed_index_handling.2.1 malformedStore "alice" "home" "not-json"
     rfl rfl,
   C10_malformed_index_handling.2.2 malformedStore 7 "alice" "not-json"
     rfl rfl rfl⟩

/-- The store after `createAddressBook` of book "home" (allocated id 1) for
principal alice, starting from the empty store. -/
def bookAlice : Store :=
  match createAddressBook Store.empty "alice" "home" [] with
  | .ok s => s
  | .error _ => Store.empty

/-- The store after then creating card "bob.vcf" in address book 1. -/
def bookAliceWithCard : Store :=
  match createCard bookAlice 1 "bob.vcf" "BODY" 100 with
  | .ok (s, _) => s
  | .error _ => Store.empty

/-- C2: refuted on the code — `createCard` ZADDs the new uri to
`addressbooks/cards`, a key that does not mention the address book id,
while `getCards` reads `addressbooks/1/cards`; after a successful
`createCard` the card's fields exist but `getCards` of the owning book
returns the empty sequence, the book's own membership index is untouched
and the uri sits in the id-less index instead. -/
theorem C2_createCard_misses_membership_index :
    createAddressBook Store.empty "alice" "home" [] = .ok bookAlice ∧
    createCard bookAlice 1 "bob.vcf" "BODY" 100 =
      .ok (bookAliceWithCard, "\"BODY\"") ∧
    bookAliceWithCard.hget (cardKey 1 "bob.vcf") "carddata" = some "BODY" ∧
    getCards bookAliceWithCard 1 = [] ∧
    bookAliceWithCard.zrangeAll (bookCardsIndexKey 1) = [] ∧
    bookAliceWithCard.zrangeAll cardMutationIndexKey = ["bob.vcf"] :=
  ⟨rfl, rfl, rfl, rfl, rfl, rfl⟩

/-- C3: refuted on the code — after creating a single address book for a
fresh principal, the listing does contain exactly one entry carrying the
right uri, but its ctag property is undefined (`none`), not 1: the stored
ctag *is* "1", yet `getAddressBooksForUser` places `data[4]` of a
four-element HMGET reply into the ctag property (and shifts the stored
description and ctag into the displayname and description properties). -/
theorem C3_listing_ctag_undefined :
    ctagOf bookAlice 1 = some "1" ∧
    getAddressBooksForUser bookAlice "alice" =
      .ok [{ id := 1, uri := some "home", principaluri := some "alice",
             displayname := some "null", description := some "1",
             getctag := none }] :=
  ⟨rfl, rfl⟩

/-- The store after also creating cards c1.vcf and c2.vcf in book 1. -/
def bookAliceTwoCards : Store :=
  match createCard bookAlice 1 "c1.vcf" "B1" 10 with
  | .ok (s, _) =>
    match createCard s 1 "c2.vcf" "B2" 20 with
    | .ok (s2, _) => s2
    | .error _ => Store.empty
  | .error _ => Store.empty

/-- C4: refuted on the code — `deleteAddressBook` reads the record field
`pricipaluri`, but `createAddressBook` wrote the principal under
`principaluri`; the read returns null, `res.toString("utf8")` throws a
`TypeError`, and the operation never completes: nothing is deleted, both
cards and the book record survive, and the book id stays in the principal
index. -/
theorem C4_deleteAddressBook_crashes :
    deleteAddressBook bookAliceTwoCards 1 =
      .error (.typeError "cannot read toString of null") ∧
    bookAliceTwoCards.hget (bookKey 1) "principaluri" = some "alice" ∧
    bookAliceTwoCards.hget (bookKey 1) "pricipaluri" = none ∧
    bookAliceTwoCards.hget (cardKey 1 "c1.vcf") "carddata" = some "B1" ∧
    bookAliceTwoCards.hget (cardKey 1 "c2.vcf") "carddata" = some "B2" ∧
    bookAliceTwoCards.hget principalIndexKey "alice" = some "[1]" :=
  ⟨rfl, rfl, rfl, rfl, rfl, rfl⟩

/-- A store holding one card, for the stored-card half of C5. -/
def oneCardStore : Store :=
  ⟨[("cards/4/y.vcf", [("carddata", "B"), ("lastmodified", "9")])], [], []⟩

/-- C5: refuted on the code — for a card with no stored fields, `getCard`
completes with a card record whose `carddata` and `lastmodified` are null
rather than with the explicit absent value: the HMGET reply is a
two-element list of nulls, so the guard `!res.length` never fires (and the
branch that was meant to signal absence executes `return callback`,
returning the callback function without invoking it, so even if it did
fire no completion would be signalled).  When fields are stored the proper
record is returned. -/
theorem C5_getCard_absent_unsignalled :
    getCard Store.empty 4 "x.vcf" =
      .found { uri := "x.vcf", carddata := none, lastmodified := none } ∧
    getCard oneCardStore 4 "y.vcf" =
      .found { uri := "y.vcf", carddata := some "B",
               lastmodified := some "9" } :=
  ⟨rfl, rfl⟩

theorem str_eq_of_data_eq {s t : String} (h : s.data = t.data) : s = t := by
  cases s
  cases t
  exact congrArg String.mk h

theorem quote_md5_inj (b1 b2 : String) :
    quoteStr (md5 b1) = quoteStr (md5 b2) ↔ b1 = b2 := by
  constructor
  · intro h
    have hd := congrArg String.data h
    simp only [quoteStr, md5, String.data_append, List.append_assoc] at hd
    have h2 := List.append_cancel_left hd
    have h3 := List.append_cancel_right h2
    exact str_eq_of_data_eq h3
  · rintro rfl
    rfl

/-- C6: the etag returned by `createCard` is the double-quoted content hash
of the body; `updateCard` with the same body returns the identical etag;
the body itself is what gets stored as `carddata`, so the etag is also the
quoted hash of the stored data; and two etags coincide exactly when the
bodies do. -/
theorem C6_etag_content_hash :
    (∀ (s : Store) (aid : Nat) (uri body : String) (now : Nat)
      (str : String),
      ctagOf s aid = some str →
      ∃ s2, createCard s aid uri body now = .ok (s2, quoteStr (md5 body)) ∧
        s2.hget (cardKey aid uri) "carddata" = some body) ∧
    (∀ (s : Store) (aid : Nat) (uri body : String) (now : Nat)
      (str : String),
      ctagOf s aid = some str →
      ∃ s2, updateCard s aid uri body now = .ok (s2, quoteStr (md5 body)) ∧
        s2.hget (cardKey aid uri) "carddata" = some body) ∧
    (∀ b1 b2 : String, quoteStr (md5 b1) = quoteStr (md5 b2) ↔ b1 = b2) := by
  refine ⟨?_, ?_, quote_md5_inj⟩
  · intro s aid uri body now str h1
    refine ⟨_, createCard_eq s aid uri body now h1, ?_⟩
    rw [hget_hset_ne_key _ _ _ _ (cardKey_ne_bookKey aid uri aid),
      hget_zadd]
    simp only [Store.hmset, List.foldl]
    rw [hget_hset_ne_field _ _ (by decide), hget_hset_self]
  · intro s aid uri body now str h1
    refine ⟨_, updateCard_eq s aid uri body now h1, ?_⟩
    rw [hget_hset_ne_key _ _ _ _ (cardKey_ne_bookKey aid uri aid)]
    simp only [Store.hmset, List.foldl]
    rw [hget_hset_ne_field _ _ (by decide), hget_hset_self]

theorem C6_etag_content_hash_witness :
    (∃ s2, createCard wBook 1 "x.vcf" "BODY" 5 = .ok (s2, quoteStr (md5 "BODY")) ∧
      s2.hget (cardKey 1 "x.vcf") "carddata" = some "BODY") ∧
    (∃ s2, updateCard wBook 1 "x.vcf" "BODY" 5 = .ok (s2, quoteStr (md5 "BODY")) ∧
      s2.hget (cardKey 1 "x.vcf") "carddata" = some "BODY") ∧
    ((quoteStr (md5 "A") = quoteStr (md5 "B")) ↔ "A" = "B") :=
  ⟨C6_etag_content_hash.1 wBook 1 "x.vcf" "BODY" 5 "1" rfl,
   C6_etag_content_hash.2.1 wBook 1 "x.vcf" "BODY" 5 "1" rfl,
   C6_etag_content_hash.2.2 "A" "B"⟩

/-- C9: `updateCard` touches no sorted set and no counter — in particular
the membership index of the owning address book is unchanged — and its
hash writes are exactly the card's `carddata` and `lastmodified` fields and
the owning book's `ctag`: every other key/field pair reads back
unchanged. -/
theorem C9_updateCard_frame :
    ∀ (s : Store) (aid : Nat) (uri body : String) (now : Nat)
      (str : String) (n : Nat),
      ctagOf s aid = some str → jsParseInt str = some n →
      ∃ s2 etag, updateCard s aid uri body now = .ok (s2, etag) ∧
        s2.zsets = s.zsets ∧
        s2.counters = s.counters ∧
        (∀ k f, k ≠ cardKey aid uri → k ≠ bookKey aid →
          s2.hget k f = s.hget k f) ∧
        s2.hget (cardKey aid uri) "carddata" = some body ∧
        s2.hget (cardKey aid uri) "lastmodified" = some (Nat.repr now) ∧
        (∀ f, f ≠ "carddata" → f ≠ "lastmodified" →
          s2.hget (cardKey aid uri) f = s.hget (cardKey aid uri) f) ∧
        ctagOf s2 aid = some (Nat.repr (n + 1)) ∧
        (∀ f, f ≠ "ctag" →
          s2.hget (bookKey aid) f = s.hget (bookKey aid) f) := by
  intro s aid uri body now str n h1 h2
  refine ⟨_, _, updateCard_eq s aid uri body now h1,
    ?_, ?_, ?_, ?_, ?_, ?_, ?_, ?_⟩
  · rw [hset_zsets, hmset_zsets]
  · rw [hset_counters, hmset_counters]
  · intro k f hk1 hk2
    rw [hget_hset_ne_key _ _ _ _ hk2]
    simp only [Store.hmset, List.foldl]
    rw [hget_hset_ne_key _ _ _ _ hk1, hget_hset_ne_key _ _ _ _ hk1]
  · rw [hget_hset_ne_key _ _ _ _ (cardKey_ne_bookKey aid uri aid)]
    simp only [Store.hmset, List.foldl]
    rw [hget_hset_ne_field _ _ (by decide), hget_hset_self]
  · rw [hget_hset_ne_key _ _ _ _ (cardKey_ne_bookKey aid uri aid)]
    simp only [Store.hmset, List.foldl]
    rw [hget_hset_self]
  · intro f hf1 hf2
    rw [hget_hset_ne_key _ _ _ _ (cardKey_ne_bookKey aid uri aid)]
    simp only [Store.hmset, List.foldl]
    rw [hget_hset_ne_field _ _ hf2, hget_hset_ne_field _ _ hf1]
  · unfold ctagOf
    rw [hget_hset_self, jsNumIncr_eq h2]
  · intro f hf
    rw [hget_hset_ne_field _ _ hf]
    simp only [Store.hmset, List.foldl]
    rw [hget_hset_ne_key _ _ _ _ (cardKey_ne_bookKey aid uri aid).symm,
      hget_hset_ne_key _ _ _ _ (cardKey_ne_bookKey aid uri aid).symm]

theorem C9_updateCard_frame_witness :
    ∃ s2 etag, updateCard wBook 1 "x.vcf" "BODY" 5 = .ok (s2, etag) ∧
      s2.zsets = wBook.zsets ∧
      s2.counters = wBook.counters ∧
      (∀ k f, k ≠ cardKey 1 "x.vcf" → k ≠ bookKey 1 →
        s2.hget k f = wBook.hget k f) ∧
      s2.hget (cardKey 1 "x.vcf") "carddata" = some "BODY" ∧
      s2.hget (cardKey 1 "x.vcf") "lastmodified" = some (Nat.repr 5) ∧
      (∀ f, f ≠ "carddata" → f ≠ "lastmodified" →
        s2.hget (cardKey 1 "x.vcf") f = wBook.hget (cardKey 1 "x.vcf") f) ∧
      ctagOf s2 1 = some (Nat.repr 2) ∧
      (∀ f, f ≠ "ctag" →
        s2.hget (bookKey 1) f = wBook.hget (bookKey 1) f) :=
  C9_updateCard_frame wBook 1 "x.vcf" "BODY" 5 "1" 1 rfl rfl

theorem applyMutations_unknown :
    ∀ (muts : List (String × String)) (acc : Option String × Option String),
      (∃ pv ∈ muts, pv.1 ≠ displaynameProp ∧ pv.1 ≠ descriptionProp) →
      applyMutations muts acc = none := by
  intro muts
  induction muts with
  | nil =>
    rintro acc ⟨pv, hmem, -⟩
    exact absurd hmem (List.not_mem_nil pv)
  | cons pv0 rest ih =>
    rintro ⟨dn, de⟩ ⟨pv, hmem, hbad1, hbad2⟩
    rcases List.mem_cons.1 hmem with rfl | htail
    · simp only [applyMutations, if_neg hbad1, if_neg hbad2]
    · by_cases h1 : pv0.1 = displaynameProp
      · obtain ⟨p0, v0⟩ := pv0
        simp only at h1
        simp only [applyMutations, if_pos h1]
        exact ih _ ⟨pv, htail, hbad1, hbad2⟩
      · by_cases h2 : pv0.1 = descriptionProp
        · obtain ⟨p0, v0⟩ := pv0
          simp only at h1 h2
          simp only [applyMutations, if_neg h1, if_pos h2]
          exact ih _ ⟨pv, htail, hbad1, hbad2⟩
        · obtain ⟨p0, v0⟩ := pv0
          simp only at h1 h2
          simp only [applyMutations, if_neg h1, if_neg h2]

theorem applyMutations_recognized :
    ∀ (muts : List (String × String)) (acc : Option String × Option String),
      (∀ pv ∈ muts, pv.1 = displaynameProp ∨ pv.1 = descriptionProp) →
      ∃ out, applyMutations muts acc = some out := by
  intro muts
  induction muts with
  | nil => exact fun acc _ => ⟨acc, rfl⟩
  | cons pv0 rest ih =>
    rintro ⟨dn, de⟩ hall
    obtain ⟨p0, v0⟩ := pv0
    rcases hall (p0, v0) (List.mem_cons_self _ _) with h1 | h2
    · simp only at h1
      simp only [applyMutations, if_pos h1]
      exact ih _ (fun pv hpv => hall pv (List.mem_cons_of_mem _ hpv))
    · simp only at h2
      by_cases h1 : p0 = displaynameProp
      · simp only [applyMutations, if_pos h1]
        exact ih _ (fun pv hpv => hall pv (List.mem_cons_of_mem _ hpv))
      · simp only [applyMutations, if_neg h1, if_pos h2]
        exact ih _ (fun pv hpv => hall pv (List.mem_cons_of_mem _ hpv))

theorem applyMutations_mono :
    ∀ (muts : List (String × String)) (a b : Option String)
      (out : Option String × Option String),
      applyMutations muts (a, b) = some out →
      (a ≠ none → out.1 ≠ none) ∧ (b ≠ none → out.2 ≠ none) := by
  intro muts
  induction muts with
  | nil =>
    intro a b out h
    simp only [applyMutations, Option.some.injEq] at h
    subst h
    exact ⟨id, id⟩
  | cons pv0 rest ih =>
    intro a b out h
    obtain ⟨p0, v0⟩ := pv0
    by_cases h1 : p0 = displaynameProp
    · simp only [applyMutations, if_pos h1] at h
      have := ih (some v0) b out h
      exact ⟨fun _ => this.1 (by simp), this.2⟩
    · by_cases h2 : p0 = descriptionProp
      · simp only [applyMutations, if_neg h1, if_pos h2] at h
        have := ih a (some v0) out h
        exact ⟨this.1, fun _ => this.2 (by simp)⟩
      · simp only [applyMutations, if_neg h1, if_neg h2] at h
        exact absurd h (by simp)

theorem updates_read_displayname (s : Store) (aid : Nat) (v0 v : String)
    (de : Option String) :
    (s.hmset (bookKey aid)
        (("ctag", v0) ::
          (optField "displayname" (some v) ++ optField "description" de))).hget
      (bookKey aid) "displayname" = some v := by
  cases de <;>
    simp only [optField, List.cons_append, List.nil_append, List.append_nil,
      Store.hmset, List.foldl]
  · rw [hget_hset_self]
  · rw [hget_hset_ne_field _ _ (by decide), hget_hset_self]

theorem updates_read_description (s : Store) (aid : Nat) (v0 w : String)
    (dn : Option String) :
    (s.hmset (bookKey aid)
        (("ctag", v0) ::
          (optField "displayname" dn ++ optField "description" (some w)))).hget
      (bookKey aid) "description" = some w := by
  cases dn <;>
    simp only [optField, List.cons_append, List.nil_append, List.append_nil,
      Store.hmset, List.foldl] <;>
    rw [hget_hset_self]

/-- C7: `updateAddressBook` rejects any mutation set containing an
unrecognized property name with result `false` and no store change at all;
an empty mutation set is likewise a `false` no-op; and a nonempty
all-recognized mutation set is accepted: the result is `true`, the new
ctag and the recognized values are written together in the single batch,
and the final values read back. -/
theorem C7_updateAddressBook_validation :
    (∀ (s : Store) (aid : Nat) (muts : List (String × String)),
      (∃ pv ∈ muts, pv.1 ≠ displaynameProp ∧ pv.1 ≠ descriptionProp) →
      updateAddressBook s aid muts = .ok (s, false)) ∧
    (∀ (s : Store) (aid : Nat),
      updateAddressBook s aid [] = .ok (s, false)) ∧
    (∀ (s : Store) (aid : Nat) (muts : List (String × String))
      (str : String) (n : Nat),
      (∀ pv ∈ muts, pv.1 = displaynameProp ∨ pv.1 = descriptionProp) →
      muts ≠ [] →
      ctagOf s aid = some str → jsParseInt str = some n →
      ∃ s2 dn de, applyMutations muts (none, none) = some (dn, de) ∧
        updateAddressBook s aid muts = .ok (s2, true) ∧
        ctagOf s2 aid = some (Nat.repr (n + 1)) ∧
        (∀ v, dn = some v →
          s2.hget (bookKey aid) "displayname" = some v) ∧
        (∀ w, de = some w →
          s2.hget (bookKey aid) "description" = some w)) := by
  refine ⟨?_, ?_, ?_⟩
  · intro s aid muts hbad
    exact updateAddressBook_eq_reject s aid (applyMutations_unknown muts _ hbad)
  · intro s aid
    rfl
  · intro s aid muts str n hall hne h1 h2
    obtain ⟨⟨dn, de⟩, happ⟩ := applyMutations_recognized muts (none, none) hall
    have hnn : ¬ (dn = none ∧ de = none) := by
      match muts, hne with
      | (p0, v0) :: rest, _ =>
        rcases hall (p0, v0) (List.mem_cons_self _ _) with hp | hp
        · simp only at hp
          simp only [applyMutations, if_pos hp] at happ
          have := (applyMutations_mono rest (some v0) none (dn, de) happ).1
            (by simp)
          simp only at this
          rintro ⟨rfl, -⟩
          exact this rfl
        · simp only at hp
          by_cases hp1 : p0 = displaynameProp
          · simp only [applyMutations, if_pos hp1] at happ
            have := (applyMutations_mono rest (some v0) none (dn, de) happ).1
              (by simp)
            simp only at this
            rintro ⟨rfl, -⟩
            exact this rfl
          · simp only [applyMutations, if_neg hp1, if_pos hp] at happ
            have := (applyMutations_mono rest none (some v0) (dn, de) happ).2
              (by simp)
            simp only at this
            rintro ⟨-, rfl⟩
            exact this rfl
    refine ⟨_, dn, de, happ,
      updateAddressBook_eq_write s aid happ hnn h1, ?_, ?_, ?_⟩
    · rw [ctagOf, ctag_after_updates, jsNumIncr_eq h2]
    · rintro v rfl
      rw [jsNumIncr_eq h2, updates_read_displayname]
    · rintro w rfl
      rw [jsNumIncr_eq h2, updates_read_description]

theorem C7_updateAddressBook_validation_witness :
    updateAddressBook wBook 1 [("bogus-prop", "v")] = .ok (wBook, false) ∧
    updateAddressBook wBook 1 [] = .ok (wBook, false) ∧
    (∃ s2 dn de,
      applyMutations [(displaynameProp, "X")] (none, none) = some (dn, de) ∧
      updateAddressBook wBook 1 [(displaynameProp, "X")] = .ok (s2, true) ∧
      ctagOf s2 1 = some (Nat.repr 2) ∧
      (∀ v, dn = some v → s2.hget (bookKey 1) "displayname" = some v) ∧
      (∀ w, de = some w → s2.hget (bookKey 1) "description" = some w)) :=
  ⟨C7_updateAddressBook_validation.1 wBook 1 [("bogus-prop", "v")]
      ⟨("bogus-prop", "v"), by decide⟩,
   C7_updateAddressBook_validation.2.1 wBook 1,
   C7_updateAddressBook_validation.2.2 wBook 1 [(displaynameProp, "X")] "1" 1
      (by decide) (by decide) rfl rfl⟩

theorem applyProperties_unknown :
    ∀ (props : List (String × String)) (acc : Option String × Option String),
      (∃ pv ∈ props, pv.1 ≠ displaynameProp ∧ pv.1 ≠ descriptionProp) →
      ∃ name, name ≠ displaynameProp ∧ name ≠ descriptionProp ∧
        applyProperties props acc =
          .error (.badRequest ("Unknown property: " ++ name)) := by
  intro props
  induction props with
  | nil =>
    rintro acc ⟨pv, hmem, -⟩
    exact absurd hmem (List.not_mem_nil pv)
  | cons pv0 rest ih =>
    rintro ⟨dn, de⟩ ⟨pv, hmem, hbad1, hbad2⟩
    obtain ⟨p0, v0⟩ := pv0
    by_cases h1 : p0 = displaynameProp
    · simp only [applyProperties, if_pos h1]
      rcases List.mem_cons.1 hmem with rfl | htail
      · exact absurd h1 hbad1
      · exact ih _ ⟨pv, htail, hbad1, hbad2⟩
    · by_cases h2 : p0 = descriptionProp
      · simp only [applyProperties, if_neg h1, if_pos h2]
        rcases List.mem_cons.1 hmem with rfl | htail
        · exact absurd h2 hbad2
        · exact ih _ ⟨pv, htail, hbad1, hbad2⟩
      · exact ⟨p0, h1, h2, by simp only [applyProperties, if_neg h1, if_neg h2]⟩

/-- C8: `createAddressBook` with any property map containing an
unrecognized name fails with a `BadRequest` naming an unrecognized
property; the failure happens before the id counter, the principal index
or any record is touched, so the error carries no new store at all and the
state is unchanged. -/
theorem C8_createAddressBook_rejects_unknown :
    ∀ (s : Store) (p url : String) (props : List (String × String)),
      (∃ pv ∈ props, pv.1 ≠ displaynameProp ∧ pv.1 ≠ descriptionProp) →
      ∃ name, name ≠ displaynameProp ∧ name ≠ descriptionProp ∧
        createAddressBook s p url props =
          .error (.badRequest ("Unknown property: " ++ name)) := by
  intro s p url props hbad
  obtain ⟨name, hn1, hn2, happ⟩ := applyProperties_unknown props (none, none) hbad
  refine ⟨name, hn1, hn2, ?_⟩
  unfold createAddressBook
  rw [happ]

theorem C8_createAddressBook_rejects_unknown_witness :
    ∃ name, name ≠ displaynameProp ∧ name ≠ descriptionProp ∧
      createAddressBook wBook "alice" "u" [("unknown-prop", "v")] =
        .error (.badRequest ("Unknown property: " ++ name)) :=
  C8_createAddressBook_rejects_unknown wBook "alice" "u"
    [("unknown-prop", "v")] ⟨("unknown-prop", "v"), by decide⟩

end JsDAVRedis
